import Mathlib

set_option maxRecDepth 8000

/-!
Shallow embedding of the allow2automate-epic plugin.

The embedded code is the plugin object in `index.js` (agent discovery,
quota-state fan-out, violation journal, IPC handlers) together with the
shared `allowed` computation that also appears in
`src/services/EpicMonitor.js` (`updateQuotaStatus`).

Side-effecting calls into the agent service (`createPolicy`,
`updatePolicy`, `deletePolicy`) are embedded as explicit lists of pushed
operations (`Op`), and the mutable plugin state
(`this.state = { agents, violations, settings }`) as an explicit
`PluginState` threaded through the handlers.
-/

namespace Epic

/-- `this.state.settings` in `index.js` (lines 37-42). -/
structure Settings where
  monitorFortnite : Bool
  monitorAllGames : Bool
  checkInterval : Int
  enableNotifications : Bool
deriving Repr, DecidableEq

/-- The initial settings of the plugin state: `monitorFortnite: true,
monitorAllGames: true, checkInterval: 30000, enableNotifications: true`. -/
def initialSettings : Settings :=
  { monitorFortnite := true, monitorAllGames := true,
    checkInterval := 30000, enableNotifications := true }

/-- An agent record as stored in `this.state.agents`: id, hostname,
platform string, online flag, optional linked child. -/
structure Agent where
  id : String
  hostname : String
  platform : String
  online : Bool
  childId : Option String
deriving Repr, DecidableEq

/-- The Allow2 quota state delivered by `stateChange` / `getChildState`:
a paused flag and a remaining quota. -/
structure QuotaState where
  paused : Bool
  quota : Int
deriving Repr, DecidableEq

/-- `const epicAllowed = !allow2State.paused && allow2State.quota > 0`
(`index.js` line 185; the same formula is `allowed` in
`EpicMonitor.updateQuotaStatus`, `EpicMonitor.js` line 171). -/
def epicAllowed (st : QuotaState) : Bool :=
  !st.paused && decide (0 < st.quota)

/-- One platform entry of the `processNames` table in
`getEpicProcessNames` (`index.js` lines 218-251). -/
structure ProcessNames where
  launcher : List String
  games : List String
deriving Repr, DecidableEq

/-- The `win32` entry of the process-name table. -/
def win32Names : ProcessNames :=
  { launcher := ["EpicGamesLauncher.exe", "EpicWebHelper.exe",
                 "UnrealEngineLauncher-Win64-Shipping.exe"],
    games := ["FortniteClient-Win64-Shipping.exe", "FortniteLauncher.exe",
              "RocketLeague.exe"] }

/-- The `darwin` entry of the process-name table. -/
def darwinNames : ProcessNames :=
  { launcher := ["EpicGamesLauncher", "Epic Games Launcher.app"],
    games := ["Fortnite.app", "RocketLeague.app"] }

/-- The `linux` entry of the process-name table. -/
def linuxNames : ProcessNames :=
  { launcher := ["EpicGamesLauncher", "legendary"],
    games := ["FortniteClient-Linux-Shipping", "RocketLeague"] }

/-- `getEpicProcessNames(platform)`: string-keyed lookup with fallback
`processNames[platform] || processNames.win32` (`index.js` line 253). -/
def getEpicProcessNames (platform : String) : ProcessNames :=
  if platform = "win32" then win32Names
  else if platform = "darwin" then darwinNames
  else if platform = "linux" then linuxNames
  else win32Names

/-- A policy record as passed to `agentService.createPolicy`
(`index.js` lines 137-151 and 156-170).  The constant `actions` and
`metadata` objects carry no varying data and are omitted. -/
structure Policy where
  processName : String
  processAlternatives : List String
  allowed : Bool
  checkInterval : Int
deriving Repr, DecidableEq

/-- A policy push to the agent service.  `index.js` issues `createPolicy`
and `updatePolicy` calls; `deletePolicy` is part of the agent-service
interface (`EpicMonitor.stopMonitoring`, `EpicMonitor.js` line 66) but is
never issued by the plugin handlers. -/
inductive Op where
  | create (agentId : String) (policy : Policy)
  | update (agentId : String) (processName : String) (allowed : Bool)
  | delete (agentId : String) (processName : String)
deriving Repr, DecidableEq

/-- The launcher policy created by `configureEpicPolicy`
(`index.js` lines 137-151): process name `processNames.launcher[0]`,
alternatives the whole launcher list, `allowed: false`. -/
def launcherPolicy (names : ProcessNames) (s : Settings) : Policy :=
  { processName := names.launcher.headD "",
    processAlternatives := names.launcher,
    allowed := false,
    checkInterval := s.checkInterval }

/-- A per-game policy created by `configureEpicPolicy`
(`index.js` lines 156-170): `allowed: false`, no alternatives field. -/
def gamePolicy (gameName : String) (s : Settings) : Policy :=
  { processName := gameName,
    processAlternatives := [],
    allowed := false,
    checkInterval := s.checkInterval }

/-- The pushes issued by `configureEpicPolicy(agent)` (`index.js` lines
129-179): one launcher create, then one create per game name when
`settings.monitorAllGames`. -/
def configureEpicPolicyOps (agentId platform : String) (s : Settings) : List Op :=
  let names := getEpicProcessNames platform
  Op.create agentId (launcherPolicy names s) ::
    (if s.monitorAllGames then
      names.games.map (fun g => Op.create agentId (gamePolicy g s))
    else [])

/-- The pushes issued by `updateEpicPolicy(agent, allow2State)`
(`index.js` lines 184-212): an `updatePolicy` on the launcher head name
and, when `settings.monitorAllGames`, one per game name, all carrying
`allowed = epicAllowed`. -/
def updateEpicPolicyOps (agentId platform : String) (qs : QuotaState) (s : Settings) :
    List Op :=
  let names := getEpicProcessNames platform
  Op.update agentId (names.launcher.headD "") (epicAllowed qs) ::
    (if s.monitorAllGames then
      names.games.map (fun g => Op.update agentId g (epicAllowed qs))
    else [])

/-- A violation record as built by `handleViolation` (`index.js` lines
281-288).  The `id` (wall clock + randomness) and `timestamp` fields are
generated from the environment and carry no data the handlers branch on;
they are omitted from the record. -/
structure Violation where
  agentId : String
  agentHostname : String
  processName : String
  childId : Option String
deriving Repr, DecidableEq

/-- The payload of a `violation` event from the agent service. -/
structure ViolationData where
  agentId : String
  hostname : Option String
  processName : String
  childId : Option String
deriving Repr, DecidableEq

/-- The violation record construction in `handleViolation`
(`index.js` lines 281-288), with `hostname || 'Unknown'`. -/
def mkViolation (d : ViolationData) : Violation :=
  { agentId := d.agentId,
    agentHostname := d.hostname.getD "Unknown",
    processName := d.processName,
    childId := d.childId }

/-- The journal capacity: `// Keep only last 100 violations`
(`index.js` line 292). -/
def journalCapacity : Nat := 100

/-- The journal append of `handleViolation` (`index.js` lines 290-295):
`violations.push(v)` followed by
`if (violations.length > 100) violations = violations.slice(-100)`.
Generic in the entry type; `slice(-100)` on a list longer than 100 keeps
the last 100 entries, i.e. drops `length - 100` from the front. -/
def appendViolation {α : Type} (vs : List α) (v : α) : List α :=
  let vs2 := vs ++ [v]
  if journalCapacity < vs2.length then vs2.drop (vs2.length - journalCapacity)
  else vs2

/-- The Epic keyword list of `isEpicProcess` (`index.js` lines 260-268). -/
def epicProcessKeywords : List String :=
  ["epicgameslauncher", "epicwebhelper", "unrealengine", "fortniteclient",
   "fortnitelauncher", "rocketleague", "legendary"]

/-- `leadsWith needle l`: `l` starts with `needle` (character lists). -/
def leadsWith : List Char → List Char → Bool
  | [], _ => true
  | _ :: _, [] => false
  | c :: cs, d :: ds => c == d && leadsWith cs ds

/-- `occursIn needle l`: `needle` occurs contiguously somewhere in `l`. -/
def occursIn (needle : List Char) : List Char → Bool
  | [] => leadsWith needle []
  | d :: ds => leadsWith needle (d :: ds) || occursIn needle ds

/-- JavaScript `haystack.includes(needle)`: substring containment. -/
def strIncludes (haystack needle : String) : Bool :=
  occursIn needle.toList haystack.toList

/-- `processName.toLowerCase()` (`index.js` line 270), character by
character (the names involved are ASCII). -/
def jsToLower (s : String) : String :=
  String.mk (s.toList.map Char.toLower)

/-- `isEpicProcess(processName)` (`index.js` lines 259-272):
lowercase the name and test each keyword for substring containment. -/
def isEpicProcess (processName : String) : Bool :=
  epicProcessKeywords.any (fun keyword => strIncludes (jsToLower processName) keyword)

/-- The mutable plugin state `this.state` (`index.js` lines 33-43),
without the `enabled` flag (set once at the end of `onLoad` and read only
by the status handler). -/
structure PluginState where
  agents : List Agent
  violations : List Violation
  settings : Settings
deriving Repr, DecidableEq

/-- The `agentDiscovered` handler (`index.js` lines 94-101):
unconditionally `this.state.agents.push(agent)` followed by
`configureEpicPolicy(agent)`.  Returns the new state and the pushes. -/
def onAgentDiscovered (st : PluginState) (a : Agent) : PluginState × List Op :=
  ({ st with agents := st.agents ++ [a] },
   configureEpicPolicyOps a.id a.platform st.settings)

/-- The pushes of the `stateChange` handler (`index.js` lines 84-91).
The handler filters the `agents` constant captured when `onLoad` ran
(`const agents = await agentService.listAgents()`, line 73) — not the
live `this.state.agents` — by `a.childId === childId`, and runs
`updateEpicPolicy` on each match. -/
def onStateChangeOps (initialAgents : List Agent) (childId : String)
    (qs : QuotaState) (s : Settings) : List Op :=
  (initialAgents.filter (fun a => a.childId == some childId)).flatMap
    (fun a => updateEpicPolicyOps a.id a.platform qs s)

/-- Fallible execution of a push sequence inside one `try` block:
pushes are attempted in order; the first failing push is still attempted
but aborts the rest of the block (`updateEpicPolicy`'s `try/catch`,
`index.js` lines 189-211, catches and only logs). -/
def attemptOps (fail : Op → Bool) : List Op → List Op
  | [] => []
  | op :: rest => if fail op then [op] else op :: attemptOps fail rest

/-- The `stateChange` fan-out with fallible pushes: each matching agent
of the captured initial list gets its own `updateEpicPolicy` call, whose
`try/catch` confines a failure to that agent's own push sequence.
Returns, per matching agent, the pushes actually attempted for it. -/
def onStateChangeRun (fail : Op → Bool) (initialAgents : List Agent)
    (childId : String) (qs : QuotaState) (s : Settings) :
    List (String × List Op) :=
  (initialAgents.filter (fun a => a.childId == some childId)).map
    (fun a => (a.id, attemptOps fail (updateEpicPolicyOps a.id a.platform qs s)))

/-- `handleViolation(violationData)` (`index.js` lines 277-295): build
the violation record, push it, trim to the last 100. -/
def handleViolation (st : PluginState) (d : ViolationData) : PluginState :=
  { st with violations := appendViolation st.violations (mkViolation d) }

/-- The `violation` event handler (`index.js` lines 113-117):
`if (isEpicProcess(processName)) handleViolation(violationData)`,
otherwise nothing happens. -/
def onViolation (st : PluginState) (d : ViolationData) : PluginState :=
  if isEpicProcess d.processName then handleViolation st d else st

/-- The result object of an IPC handler: `{ success, error? }`. -/
structure IpcResult where
  success : Bool
  error : Option String
deriving Repr, DecidableEq

/-- The partial settings object passed to `epic:updateSettings`;
absent fields are left unchanged by the spread merge. -/
structure PartialSettings where
  monitorFortnite : Option Bool := none
  monitorAllGames : Option Bool := none
  checkInterval : Option Int := none
  enableNotifications : Option Bool := none
deriving Repr, DecidableEq

/-- The spread merge `{ ...this.state.settings, ...newSettings }`
(`index.js` line 375). -/
def mergeSettings (s : Settings) (p : PartialSettings) : Settings :=
  { monitorFortnite := p.monitorFortnite.getD s.monitorFortnite,
    monitorAllGames := p.monitorAllGames.getD s.monitorAllGames,
    checkInterval := p.checkInterval.getD s.checkInterval,
    enableNotifications := p.enableNotifications.getD s.enableNotifications }

/-- JavaScript truthiness of `newSettings.checkInterval`
(`index.js` line 378): present and nonzero. -/
def truthyCheckInterval (p : PartialSettings) : Bool :=
  match p.checkInterval with
  | some n => decide (n ≠ 0)
  | none => false

/-- The `epic:updateSettings` IPC handler (`index.js` lines 374-386):
merge the partial settings into the stored ones; if the incoming
`checkInterval` is truthy, re-run `configureEpicPolicy` for every agent
in `this.state.agents` (with the already-merged settings); always return
`{ success: true }`.  No validation, no diffing, no deletes. -/
def onUpdateSettings (st : PluginState) (p : PartialSettings) :
    PluginState × List Op × IpcResult :=
  let s2 := mergeSettings st.settings p
  let st2 := { st with settings := s2 }
  let ops := if truthyCheckInterval p then
      st2.agents.flatMap (fun a => configureEpicPolicyOps a.id a.platform s2)
    else []
  (st2, ops, { success := true, error := none })

/-- Clear `childId` on the first agent whose id matches, as
`state.agents.find(a => a.id === agentId)` followed by the in-place
mutation `agent.childId = null` does (`index.js` lines 421-426). -/
def clearFirstChildId : List Agent → String → List Agent
  | [], _ => []
  | a :: rest, agentId =>
    if a.id == agentId then { a with childId := none } :: rest
    else a :: clearFirstChildId rest agentId

/-- The `epic:unlinkAgent` IPC handler (`index.js` lines 420-428):
unknown agent → `{ success: false, error: 'Agent not found' }` with no
state change; known agent → clear its `childId`, return success.  No
policy pushes are issued on either path. -/
def onUnlinkAgent (st : PluginState) (agentId : String) :
    PluginState × List Op × IpcResult :=
  match st.agents.find? (fun a => a.id == agentId) with
  | none => (st, [], { success := false, error := some "Agent not found" })
  | some _ =>
    ({ st with agents := clearFirstChildId st.agents agentId }, [],
     { success := true, error := none })

/-- JavaScript `arr.slice(-limit)` for a non-negative `limit`:
`slice(-0)` is `slice(0)` (the whole array); for positive `limit` it
keeps the last `min(limit, length)` entries. -/
def sliceLast {α : Type} (vs : List α) (limit : Nat) : List α :=
  if limit = 0 then vs else vs.drop (vs.length - limit)

/-- The `epic:getViolations` IPC handler body (`index.js` lines 352-357):
`violations.slice(-limit).reverse()` (default `limit = 50`). -/
def getViolationsQuery {α : Type} (vs : List α) (limit : Nat) : List α :=
  (sliceLast vs limit).reverse

/-!
## Aliasing of the agent list

`onLoad` runs `const agents = await agentService.listAgents()` and then
`this.state.agents = agents` (`index.js` lines 73, 76), so the array
captured by the `stateChange` closure (line 86 filters `agents`, not
`this.state.agents`) and `this.state.agents` are the *same* array.
`agentDiscovered` mutates it in place with `push` (line 96), so both
views see the new agent — until `agentLost` *rebinds*
`this.state.agents` to a fresh filtered array (line 106), after which
the closure keeps the old array.  `MonitorSys` embeds this explicitly:
`loadAgents` is the contents of the array the closure holds, `agents`
the contents of `this.state.agents`, and `aliased` whether they are
still one array.
-/

structure MonitorSys where
  loadAgents : List Agent
  agents : List Agent
  aliased : Bool
deriving Repr, DecidableEq

/-- `onLoad` (`index.js` lines 73-76): both names reference the array
returned by `listAgents()`. -/
def onLoadSys (initial : List Agent) : MonitorSys :=
  { loadAgents := initial, agents := initial, aliased := true }

/-- The `agentDiscovered` handler's `this.state.agents.push(agent)`
(`index.js` line 96): an in-place mutation, visible through the
captured `agents` reference exactly while the alias holds. -/
def discoverSys (sys : MonitorSys) (a : Agent) : MonitorSys :=
  { loadAgents := if sys.aliased then sys.loadAgents ++ [a] else sys.loadAgents,
    agents := sys.agents ++ [a],
    aliased := sys.aliased }

/-- The `agentLost` handler (`index.js` line 106):
`this.state.agents = this.state.agents.filter(a => a.id !== agentId)`
rebinds `this.state.agents` to a fresh array, so the closure's captured
array stops tracking it. -/
def lostSys (sys : MonitorSys) (agentId : String) : MonitorSys :=
  { loadAgents := sys.loadAgents,
    agents := sys.agents.filter (fun a => !(a.id == agentId)),
    aliased := false }

/-- The pushes of the `stateChange` handler in terms of `MonitorSys`:
the handler filters the captured array (`index.js` line 86). -/
def stateChangeSysOps (sys : MonitorSys) (childId : String) (qs : QuotaState)
    (s : Settings) : List Op :=
  onStateChangeOps sys.loadAgents childId qs s

/-! ## Helper lemmas -/

theorem configure_ops_create {op : Op} {aid pf : String} {s : Settings}
    (h : op ∈ configureEpicPolicyOps aid pf s) :
    ∃ pol, op = Op.create aid pol ∧ pol.allowed = false
      ∧ pol.checkInterval = s.checkInterval := by
  unfold configureEpicPolicyOps at h
  rcases List.mem_cons.mp h with rfl | h2
  · exact ⟨_, rfl, rfl, rfl⟩
  · cases hm : s.monitorAllGames with
    | false => rw [hm] at h2; simp at h2
    | true =>
      rw [hm] at h2
      simp only [if_true] at h2
      rcases List.mem_map.mp h2 with ⟨g, _, rfl⟩
      exact ⟨_, rfl, rfl, rfl⟩

theorem find_clearFirst {l : List Agent} {aid : String} {a : Agent}
    (h : l.find? (fun x => x.id == aid) = some a) :
    ∃ l1 l2, l = l1 ++ a :: l2 ∧ (∀ b ∈ l1, (b.id == aid) = false) ∧
      clearFirstChildId l aid = l1 ++ { a with childId := none } :: l2 := by
  induction l with
  | nil => simp [List.find?] at h
  | cons x xs ih =>
    cases hx : (x.id == aid) with
    | true =>
      rw [List.find?, hx] at h
      obtain rfl : x = a := by simpa using h
      refine ⟨[], xs, rfl, by simp, ?_⟩
      simp [clearFirstChildId, hx]
    | false =>
      rw [List.find?, hx] at h
      obtain ⟨l1, l2, heq, hall, hclear⟩ := ih h
      refine ⟨x :: l1, l2, by rw [heq]; rfl, ?_, ?_⟩
      · intro b hb
        rcases List.mem_cons.mp hb with rfl | hb
        · exact hx
        · exact hall b hb
      · simp [clearFirstChildId, hx, hclear]

theorem appendViolation_drop {α : Type} (ws : List α) (v : α) :
    appendViolation (ws.drop (ws.length - journalCapacity)) v
      = (ws ++ [v]).drop ((ws ++ [v]).length - journalCapacity) := by
  simp only [appendViolation, journalCapacity, List.length_append, List.length_cons,
    List.length_nil, List.length_drop]
  rcases le_or_lt ws.length 99 with h | h
  · have h1 : ws.length - 100 = 0 := by omega
    have h2 : ws.length + 1 - 100 = 0 := by omega
    have h3 : ¬ (100 < ws.length - (ws.length - 100) + 1) := by omega
    simp [h1, h2, h3]
  · have h1 : ws.length - (ws.length - 100) = 100 := by omega
    have h2 : (100 : Nat) < 100 + 1 := by omega
    rw [h1]
    simp only [h2, if_true]
    have h3 : (ws.drop (ws.length - 100) ++ [v]).drop 1
        = (ws.drop (ws.length - 100)).drop 1 ++ [v] := by
      rw [List.drop_append_eq_append_drop]
      have : 1 - (ws.drop (ws.length - 100)).length = 0 := by
        simp [List.length_drop]; omega
      rw [this]
      rfl
    have h4 : (ws ++ [v]).drop (ws.length + 1 - 100)
        = ws.drop (ws.length + 1 - 100) ++ [v] := by
      rw [List.drop_append_eq_append_drop]
      have : ws.length + 1 - 100 - ws.length = 0 := by omega
      rw [this]
      rfl
    rw [h3, h4, List.drop_drop]
    have h5 : ws.length - 100 + 1 = ws.length + 1 - 100 := by omega
    rw [h5]

theorem foldl_appendViolation {α : Type} (ws : List α) :
    ws.foldl appendViolation [] = ws.drop (ws.length - journalCapacity) := by
  induction ws using List.reverseRecOn with
  | nil => rfl
  | append_singleton l a ih =>
    rw [List.foldl_append, List.foldl_cons, List.foldl_nil, ih]
    exact appendViolation_drop l a

end Epic

namespace Epic

/-! ## Claims -/

/-- C1: the allowed flag computed on link and on quota change equals
`!paused && quota > 0`: paused forces `false` regardless of quota,
non-positive quota forces `false`, and unpaused positive quota gives
`true`. -/
theorem epicAllowed_spec :
    (∀ q : Int, epicAllowed { paused := true, quota := q } = false) ∧
    (∀ (p : Bool) (q : Int), q ≤ 0 →
      epicAllowed { paused := p, quota := q } = false) ∧
    (∀ q : Int, 0 < q → epicAllowed { paused := false, quota := q } = true) := by
  refine ⟨fun q => rfl, fun p q h => ?_, fun q h => ?_⟩
  · have hq : decide ((0 : Int) < q) = false := by simp; omega
    simp [epicAllowed, hq]
  · simp [epicAllowed, h]

theorem epicAllowed_spec_witness :
    epicAllowed { paused := true, quota := 5 } = false ∧
    epicAllowed { paused := false, quota := -1 } = false ∧
    epicAllowed { paused := false, quota := 5 } = true :=
  ⟨epicAllowed_spec.1 5, epicAllowed_spec.2.1 false (-1) (by decide),
   epicAllowed_spec.2.2 5 (by decide)⟩

/-- C2: the violation journal never holds more than `journalCapacity = 100`
entries — after any sequence of appends the stored list has length at
most 100 — and after `C + 5` appends the retained entries equal the last
`C` appended entries in insertion order (bounded FIFO eviction). -/
theorem violationJournal_bounded_fifo :
    (∀ (α : Type) (vs : List α) (v : α),
      (appendViolation vs v).length ≤ journalCapacity) ∧
    (∀ (α : Type) (ws : List α),
      (ws.foldl appendViolation []).length ≤ journalCapacity) ∧
    (∀ (α : Type) (ws : List α), ws.length = journalCapacity + 5 →
      ws.foldl appendViolation [] = ws.drop 5) := by
  refine ⟨?_, ?_, ?_⟩
  · intro α vs v
    simp only [appendViolation, journalCapacity]
    split
    · rw [List.length_drop]
      omega
    · omega
  · intro α ws
    rw [foldl_appendViolation, List.length_drop]
    omega
  · intro α ws h
    rw [foldl_appendViolation, h]
    rfl

theorem violationJournal_bounded_fifo_witness :
    ((List.range 105).foldl appendViolation []).length ≤ journalCapacity ∧
    (List.range 105).foldl appendViolation [] = (List.range 105).drop 5 :=
  ⟨violationJournal_bounded_fifo.2.1 Nat (List.range 105),
   violationJournal_bounded_fifo.2.2 Nat (List.range 105) (by rfl)⟩

/-- The process name carried by a push. -/
def opProcessName : Op → String
  | .create _ p => p.processName
  | .update _ pn _ => pn
  | .delete _ pn => pn

/-- A win32 agent used for concrete scenarios. -/
def agentA : Agent :=
  { id := "A", hostname := "host-a", platform := "win32",
    online := true, childId := none }

/-- The plugin state right after loading with no agents. -/
def st0 : PluginState :=
  { agents := [], violations := [], settings := initialSettings }

/-- C3 (counterexample): discovering a win32 agent at the initial
settings does not create five policies — `configureEpicPolicy` creates a
single launcher policy (web helper and engine launcher are alternatives
inside it, not policies of their own) plus three game policies. -/
theorem discovery_win32_counterexample :
    ((onAgentDiscovered st0 agentA).2).length ≠ 5 := by decide

/-- C3 (amended): when an agent with platform "win32" is discovered at
the initial settings, exactly four policies are created — the launcher
(one policy whose alternatives list the web helper and engine launcher),
the Fortnite client, the Fortnite launcher, and Rocket League — and
every created policy has `allowed = false`. -/
theorem discovery_win32_policies (st : PluginState) (a : Agent)
    (hp : a.platform = "win32") (hs : st.settings = initialSettings) :
    ((onAgentDiscovered st a).2).map opProcessName =
      ["EpicGamesLauncher.exe", "FortniteClient-Win64-Shipping.exe",
       "FortniteLauncher.exe", "RocketLeague.exe"] ∧
    ((onAgentDiscovered st a).2).length = 4 ∧
    ∀ op ∈ (onAgentDiscovered st a).2,
      ∃ p, op = Op.create a.id p ∧ p.allowed = false := by
  have h2 : (onAgentDiscovered st a).2
      = configureEpicPolicyOps a.id "win32" initialSettings := by
    simp [onAgentDiscovered, hp, hs]
  rw [h2]
  refine ⟨?_, ?_, ?_⟩
  · simp [configureEpicPolicyOps, getEpicProcessNames, win32Names,
      launcherPolicy, gamePolicy, initialSettings, opProcessName]
  · simp [configureEpicPolicyOps, getEpicProcessNames, win32Names,
      initialSettings]
  · intro op hop
    simp [configureEpicPolicyOps, getEpicProcessNames, win32Names,
      initialSettings] at hop
    rcases hop with rfl | rfl | rfl | rfl
    · exact ⟨_, rfl, rfl⟩
    · exact ⟨_, rfl, rfl⟩
    · exact ⟨_, rfl, rfl⟩
    · exact ⟨_, rfl, rfl⟩

theorem discovery_win32_policies_witness :
    ((onAgentDiscovered st0 agentA).2).map opProcessName =
      ["EpicGamesLauncher.exe", "FortniteClient-Win64-Shipping.exe",
       "FortniteLauncher.exe", "RocketLeague.exe"] ∧
    ((onAgentDiscovered st0 agentA).2).length = 4 ∧
    ∀ op ∈ (onAgentDiscovered st0 agentA).2,
      ∃ p, op = Op.create agentA.id p ∧ p.allowed = false :=
  discovery_win32_policies st0 agentA rfl rfl

/-- C5 (counterexample): delivering the same `agentDiscovered` event
twice with the identical record is not a no-op — the agent appears twice
in the agent list and the second delivery issues a nonempty list of
policy pushes again. -/
theorem discovery_idempotent_counterexample :
    ((onAgentDiscovered (onAgentDiscovered st0 agentA).1 agentA).1).agents
      = [agentA, agentA] ∧
    (onAgentDiscovered (onAgentDiscovered st0 agentA).1 agentA).2 ≠ [] := by
  exact ⟨by decide, by decide⟩

/-- C5 (amended): discovery is not idempotent — each delivery of the
same agent record appends it to the agent list again (so after two
deliveries it appears twice), and the second delivery re-issues exactly
the same policy-create pushes as the first. -/
theorem discovery_not_idempotent (st : PluginState) (a : Agent) :
    ((onAgentDiscovered st a).1).agents = st.agents ++ [a] ∧
    ((onAgentDiscovered (onAgentDiscovered st a).1 a).1).agents
      = st.agents ++ [a, a] ∧
    (onAgentDiscovered (onAgentDiscovered st a).1 a).2
      = (onAgentDiscovered st a).2 := by
  refine ⟨rfl, ?_, rfl⟩
  simp [onAgentDiscovered]

/-- C7: a violation event is recorded exactly when its process name,
lowercased, contains one of the Epic keywords as a substring; the
Fortnite shipping executable matches keyword "fortniteclient" and is
appended to the journal, while "notepad.exe" matches nothing and leaves
the state unchanged. -/
theorem violation_filter (st : PluginState) (d : ViolationData) :
    (isEpicProcess d.processName = true →
      onViolation st d
        = { st with violations := appendViolation st.violations (mkViolation d) }) ∧
    (isEpicProcess d.processName = false → onViolation st d = st) ∧
    isEpicProcess "FortniteClient-Win64-Shipping.exe" = true ∧
    isEpicProcess "notepad.exe" = false := by
  refine ⟨fun h => ?_, fun h => ?_, by decide, by decide⟩
  · simp [onViolation, handleViolation, h]
  · simp [onViolation, h]

/-- A matching violation payload used for concrete scenarios. -/
def dFortnite : ViolationData :=
  { agentId := "A", hostname := some "host-a",
    processName := "FortniteClient-Win64-Shipping.exe", childId := some "C1" }

/-- A non-Epic violation payload used for concrete scenarios. -/
def dNotepad : ViolationData :=
  { agentId := "A", hostname := none,
    processName := "notepad.exe", childId := none }

theorem violation_filter_witness :
    onViolation st0 dFortnite
      = { st0 with violations := appendViolation st0.violations (mkViolation dFortnite) } ∧
    onViolation st0 dNotepad = st0 :=
  ⟨(violation_filter st0 dFortnite).1 (by decide),
   (violation_filter st0 dNotepad).2.1 (by decide)⟩

/-- A one-agent plugin state at the initial settings. -/
def stWithA : PluginState :=
  { agents := [agentA], violations := [], settings := initialSettings }

/-- C4 (counterexample): with a known win32 agent and `monitorAllGames`
currently `true`, the `epic:updateSettings` call that turns it `false`
stores the new flag but pushes no policy operations at all — in
particular no deletes of the game policies. -/
theorem updateSettings_diff_counterexample :
    stWithA.settings.monitorAllGames = true ∧
    (onUpdateSettings stWithA { monitorAllGames := some false }).1.settings.monitorAllGames
      = false ∧
    (onUpdateSettings stWithA { monitorAllGames := some false }).2.1 = [] := by
  decide

/-- C4 (amended): a settings update merges the partial settings and
never diffs the policy set — it pushes nothing unless the update
carries a truthy (nonzero) check interval, and whatever it pushes are
`createPolicy` calls only, never deletes; so turning `monitorAllGames`
from `true` to `false` removes no policy. -/
theorem updateSettings_no_diff (st : PluginState) (p : PartialSettings) :
    (onUpdateSettings st p).1.settings = mergeSettings st.settings p ∧
    (truthyCheckInterval p = false → (onUpdateSettings st p).2.1 = []) ∧
    (∀ op ∈ (onUpdateSettings st p).2.1, ∃ aid pol, op = Op.create aid pol) := by
  refine ⟨rfl, fun h => ?_, fun op hop => ?_⟩
  · simp [onUpdateSettings, h]
  · cases ht : truthyCheckInterval p with
    | false => simp [onUpdateSettings, ht] at hop
    | true =>
      simp only [onUpdateSettings, ht, if_true] at hop
      rcases List.mem_flatMap.mp hop with ⟨a, _, hopa⟩
      obtain ⟨pol, rfl, _, _⟩ := configure_ops_create hopa
      exact ⟨_, _, rfl⟩

theorem updateSettings_no_diff_witness :
    (onUpdateSettings stWithA { monitorAllGames := some false }).2.1 = [] ∧
    (∃ aid pol,
      Op.create "A"
        { processName := "EpicGamesLauncher.exe",
          processAlternatives := ["EpicGamesLauncher.exe", "EpicWebHelper.exe",
            "UnrealEngineLauncher-Win64-Shipping.exe"],
          allowed := false, checkInterval := 10000 } = Op.create aid pol) :=
  ⟨(updateSettings_no_diff stWithA { monitorAllGames := some false }).2.1 (by decide),
   (updateSettings_no_diff stWithA { checkInterval := some 10000 }).2.2 _ (by decide)⟩

/-- An agent linked to child "E", discovered after initialization. -/
def agentB : Agent :=
  { id := "B", hostname := "host-b", platform := "win32",
    online := true, childId := some "E" }

/-- C6: after an `agentLost` event has rebound `this.state.agents`, the
`stateChange` handler's captured array no longer tracks the live agent
list, so an agent discovered later — though currently known and linked
to the child — receives no quota update push, while a fan-out over it
would have pushed a nonempty update list.  The final conjunct shows the
loss-free trace, where the alias still holds, does include the
later-discovered agent. -/
theorem quotaChange_stale_capture :
    (discoverSys (lostSys (onLoadSys []) "X") agentB).agents = [agentB] ∧
    agentB.childId = some "E" ∧
    stateChangeSysOps (discoverSys (lostSys (onLoadSys []) "X") agentB) "E"
      { paused := false, quota := 5 } initialSettings = [] ∧
    updateEpicPolicyOps agentB.id agentB.platform
      { paused := false, quota := 5 } initialSettings ≠ [] ∧
    stateChangeSysOps (discoverSys (onLoadSys []) agentB) "E"
      { paused := false, quota := 5 } initialSettings
      = updateEpicPolicyOps agentB.id agentB.platform
          { paused := false, quota := 5 } initialSettings := by
  decide

/-- C8 (counterexample): a settings update carrying the non-positive
check interval `-5` is not rejected — it returns success and the stored
settings are changed to the invalid interval. -/
theorem updateSettings_validation_counterexample :
    (onUpdateSettings stWithA { checkInterval := some (-5) }).2.2.success = true ∧
    (onUpdateSettings stWithA { checkInterval := some (-5) }).1.settings.checkInterval
      = -5 ∧
    stWithA.settings.checkInterval = 30000 := by
  decide

/-- C8 (amended): a settings update carrying a non-positive check
interval is accepted with no validation: it returns success and the
invalid interval replaces the stored one; a zero interval (falsy)
triggers no reconfiguration, while a negative (truthy) interval makes
every pushed reconfiguration policy carry the non-positive interval. -/
theorem updateSettings_no_validation (st : PluginState) (p : PartialSettings)
    (n : Int) (hc : p.checkInterval = some n) (_hn : n ≤ 0) :
    (onUpdateSettings st p).2.2 = { success := true, error := none } ∧
    (onUpdateSettings st p).1.settings.checkInterval = n ∧
    (n = 0 → (onUpdateSettings st p).2.1 = []) ∧
    (∀ op ∈ (onUpdateSettings st p).2.1,
      ∃ aid pol, op = Op.create aid pol ∧ pol.checkInterval = n) := by
  refine ⟨rfl, ?_, fun h0 => ?_, fun op hop => ?_⟩
  · simp [onUpdateSettings, mergeSettings, hc]
  · have ht : truthyCheckInterval p = false := by
      simp [truthyCheckInterval, hc, h0]
    simp [onUpdateSettings, ht]
  · cases ht : truthyCheckInterval p with
    | false => simp [onUpdateSettings, ht] at hop
    | true =>
      simp only [onUpdateSettings, ht, if_true] at hop
      rcases List.mem_flatMap.mp hop with ⟨a, _, hopa⟩
      obtain ⟨pol, rfl, _, hci⟩ := configure_ops_create hopa
      refine ⟨_, pol, rfl, ?_⟩
      rw [hci]
      simp [mergeSettings, hc]

theorem updateSettings_no_validation_witness :
    (onUpdateSettings stWithA { checkInterval := some (-5) }).2.2
      = { success := true, error := none } ∧
    (onUpdateSettings stWithA { checkInterval := some (-5) }).1.settings.checkInterval
      = -5 :=
  ⟨(updateSettings_no_validation stWithA { checkInterval := some (-5) } (-5)
      rfl (by decide)).1,
   (updateSettings_no_validation stWithA { checkInterval := some (-5) } (-5)
      rfl (by decide)).2.1⟩

/-- C9: unlinking a known agent clears exactly that (first matching)
agent's binding and returns success with no policy pushes; an unknown
agent yields the not-found error with no state change at all; in the
known case the violations, settings, and every other agent record are
untouched. -/
theorem unlinkAgent_frame :
    (∀ (st : PluginState) (aid : String),
      st.agents.find? (fun a => a.id == aid) = none →
      onUnlinkAgent st aid
        = (st, [], { success := false, error := some "Agent not found" })) ∧
    (∀ (st : PluginState) (aid : String) (a : Agent),
      st.agents.find? (fun a => a.id == aid) = some a →
      (onUnlinkAgent st aid).2.2 = { success := true, error := none } ∧
      (onUnlinkAgent st aid).2.1 = [] ∧
      (onUnlinkAgent st aid).1.violations = st.violations ∧
      (onUnlinkAgent st aid).1.settings = st.settings ∧
      ∃ l1 l2, st.agents = l1 ++ a :: l2 ∧
        (∀ b ∈ l1, (b.id == aid) = false) ∧
        (onUnlinkAgent st aid).1.agents = l1 ++ { a with childId := none } :: l2) := by
  constructor
  · intro st aid h
    simp [onUnlinkAgent, h]
  · intro st aid a h
    obtain ⟨l1, l2, heq, hall, hclear⟩ := find_clearFirst h
    exact ⟨by simp [onUnlinkAgent, h], by simp [onUnlinkAgent, h],
      by simp [onUnlinkAgent, h], by simp [onUnlinkAgent, h],
      l1, l2, heq, hall, by simp [onUnlinkAgent, h, hclear]⟩

/-- A linked variant of agent A. -/
def agentALinked : Agent := { agentA with childId := some "C1" }

/-- A state holding the linked agent A. -/
def stLinked : PluginState :=
  { agents := [agentALinked], violations := [], settings := initialSettings }

theorem unlinkAgent_frame_witness :
    onUnlinkAgent st0 "Z"
      = (st0, [], { success := false, error := some "Agent not found" }) ∧
    ((onUnlinkAgent stLinked "A").2.2 = { success := true, error := none } ∧
      (onUnlinkAgent stLinked "A").2.1 = [] ∧
      (onUnlinkAgent stLinked "A").1.violations = stLinked.violations ∧
      (onUnlinkAgent stLinked "A").1.settings = stLinked.settings ∧
      ∃ l1 l2, stLinked.agents = l1 ++ agentALinked :: l2 ∧
        (∀ b ∈ l1, (b.id == "A") = false) ∧
        (onUnlinkAgent stLinked "A").1.agents
          = l1 ++ { agentALinked with childId := none } :: l2) :=
  ⟨unlinkAgent_frame.1 st0 "Z" (by decide),
   unlinkAgent_frame.2 stLinked "A" agentALinked (by decide)⟩

/-- C10: querying violations with `limit = 0` returns every stored
violation in newest-first order — `slice(-0)` is `slice(0)` — so the
result is nonempty whenever the journal is, while any positive limit
caps the result length at the limit. -/
theorem getViolations_limit_zero (vs : List Violation) :
    getViolationsQuery vs 0 = vs.reverse ∧
    (vs ≠ [] → getViolationsQuery vs 0 ≠ []) ∧
    (∀ n : Nat, 0 < n → (getViolationsQuery vs n).length ≤ n) := by
  refine ⟨?_, fun h => ?_, fun n hn => ?_⟩
  · simp [getViolationsQuery, sliceLast]
  · simp [getViolationsQuery, sliceLast, h]
  · have hn' : ¬ n = 0 := Nat.pos_iff_ne_zero.mp hn
    simp [getViolationsQuery, sliceLast, hn', List.length_drop]
    omega

/-- A two-entry journal used for concrete queries. -/
def sampleViolations : List Violation :=
  [mkViolation dFortnite, mkViolation dNotepad]

theorem getViolations_limit_zero_witness :
    getViolationsQuery sampleViolations 0 = sampleViolations.reverse ∧
    getViolationsQuery sampleViolations 0 ≠ [] ∧
    (getViolationsQuery sampleViolations 1).length ≤ 1 :=
  ⟨(getViolations_limit_zero sampleViolations).1,
   (getViolations_limit_zero sampleViolations).2.1 (by decide),
   (getViolations_limit_zero sampleViolations).2.2 1 (by decide)⟩

end Epic

